import Mathlib

/-!
# SQLiteStudio: completion results, database plugin and console command

A shallow embedding of parts of SQLiteStudio:

* `CompletionHelper` (coreSQLiteStudio/completionhelper.h): the result record, the
  cursor tests written in the header, and the post-processing of completion
  candidates.  The bodies of `applyFilter`, `filterDuplicates`, `sort`,
  `extractTableAliasMap` and `getExpectedTokens` live in completionhelper.cpp, which is
  not among the sources; they are modelled from the specification and marked so.
* `DbPluginSqlite3` (coreSQLiteStudio/plugins/dbpluginsqlite3.cpp).
* `CliCommandSql` (Console/commands/clicommandsql.cpp).
* `SqlFormatterSimplePlugin` (Plugins/SqlFormatterSimple/sqlformattersimpleplugin.cpp).
* `SQLiteStudio::init` (coreSQLiteStudio/sqlitestudio.cpp), as the namespace `Core`:
  the statements of `init` in order, each with its effect on the members.

Strings are `String`s read through their character lists; Qt lists are `List`s;
a nullable pointer is an `Option`.
-/

namespace SQLiteStudio

/-! ## Text helpers -/

/-- Case folding of one character, used for every case-insensitive comparison.
Qt folds through Unicode case mapping; the embedding folds the ASCII letters, and no
theorem below depends on which characters are folded. -/
def caseFold (c : Char) : Char := c.toLower

/-- A text folded character by character. -/
def foldText (s : String) : List Char := s.data.map caseFold

/-- The test `s.startsWith(p, Qt::CaseInsensitive)`. -/
def startsWithCI (s p : String) : Bool := (foldText p).isPrefixOf (foldText s)

/-! ## Completion candidates -/

/-- Modelled from the spec: the candidate kinds of `ExpectedToken::Type`
(expectedtoken.h is not among the sources; the spec lists the kinds). -/
inductive ExpectedTokenType where
  | KEYWORD | TABLE | COLUMN | DATABASE | FUNCTION | PRAGMA
  | COLLATION | INDEX | TRIGGER | VIEW | OTHER
deriving DecidableEq, Repr

/-- Modelled from the spec: a completion candidate, `ExpectedToken`
(expectedtoken.h is not among the sources).  `contextInfo`, `label` and the text to
prepend are optional; `priority` is an integer, higher meaning more relevant. -/
structure ExpectedToken where
  type : ExpectedTokenType
  value : String
  contextInfo : Option String := none
  label : Option String := none
  prefixText : Option String := none
  priority : Int := 0
deriving DecidableEq, Repr

/-- The triple under which two candidates are the same candidate:
(type, value, contextInfo). -/
def ExpectedToken.key (t : ExpectedToken) : ExpectedTokenType × String × Option String :=
  (t.type, t.value, t.contextInfo)

namespace CompletionHelper

/-- The record `CompletionHelper::Results` of completionhelper.h. -/
structure Results where
  expectedTokens : List ExpectedToken := []
  partialToken : String := ""
  wrappedToken : Bool := false
deriving DecidableEq, Repr

/-- Modelled from the spec: the body of `CompletionHelper::applyFilter` (declared in
completionhelper.h, defined in the absent completionhelper.cpp).  "Filter by prefix:
case-insensitive prefix match of candidate value against the partial token." -/
def applyFilter (results : List ExpectedToken) (filter : String) : List ExpectedToken :=
  results.filter (fun t => startsWithCI t.value filter)

/-- Modelled from the spec: the body of `Results::filtered` (declared in
completionhelper.h): the candidates of the result filtered by its own partial token. -/
def Results.filtered (r : Results) : List ExpectedToken :=
  applyFilter r.expectedTokens r.partialToken


/-! ### Post-processing of the candidates -/

/-- One step of duplicate filtering: `t` joins the candidates kept so far.  A kept
candidate with the same triple stays unless `t` has the higher priority, in which case
`t` takes its place. -/
def keepBest (t : ExpectedToken) : List ExpectedToken → List ExpectedToken
  | [] => [t]
  | u :: us =>
    if u.key = t.key then
      (if u.priority < t.priority then t :: us else u :: us)
    else u :: keepBest t us

/-- Modelled from the spec: the body of `CompletionHelper::filterDuplicates` (declared
in completionhelper.h, defined in the absent completionhelper.cpp).  "Duplicate
filtering: candidates equal under (type, value, contextInfo) collapse to one, keeping
the highest priority." -/
def filterDuplicates (results : List ExpectedToken) : List ExpectedToken :=
  results.foldl (fun kept t => keepBest t kept) []

/-- Lexicographic "less or equal" on character codes. -/
def lexLE : List Nat → List Nat → Bool
  | [], _ => true
  | _ :: _, [] => false
  | a :: as, b :: bs => decide (a < b) || (decide (a = b) && lexLE as bs)

/-- Case-insensitive lexicographic order of two texts. -/
def lexLECI (s p : String) : Bool :=
  lexLE ((foldText s).map Char.toNat) ((foldText p).map Char.toNat)

/-- Modelled from the spec: the order `CompletionHelper::sort` sorts by (the comparer
of completioncomparer.h is not among the sources).  "Sort: descending by priority;
ties broken by case-insensitive lexicographic order of value." -/
def sortsBefore (a b : ExpectedToken) : Bool :=
  decide (b.priority < a.priority) ||
    (decide (a.priority = b.priority) && lexLECI a.value b.value)

/-- Modelled from the spec: the body of `CompletionHelper::sort` (declared in
completionhelper.h, defined in the absent completionhelper.cpp): the candidates sorted
by `sortsBefore`. -/
def sort (results : List ExpectedToken) : List ExpectedToken :=
  results.insertionSort (fun a b => sortsBefore a b = true)

/-! ### Statements, cursor and context -/

/-- Modelled from the spec: the token kinds of `Token::Type` (parser/token.h is not
among the sources). -/
inductive TokenType where
  | KEYWORD | OPERATOR | IDENTIFIER | STRING_LITERAL | NUMBER | SPACE | COMMENT | OTHER
deriving DecidableEq, Repr

/-- Modelled from the spec: a token with its source offsets (parser/token.h is not
among the sources).  `endOffset` is the member `end` of the source. -/
structure Token where
  type : TokenType
  value : String
  start : Int
  endOffset : Int
deriving DecidableEq, Repr

/-- What the header uses of a statement node (`SqliteStatement` and its family): its
tokens.  A statement pointer that may be null is an `Option SqliteStatement`. -/
structure SqliteStatement where
  tokens : List Token
deriving DecidableEq, Repr

/-- The enumeration `CompletionHelper::Context` of completionhelper.h. -/
inductive Context where
  | NONE | SELECT_RESULT_COLUMN | SELECT_FROM | SELECT_WHERE | SELECT_GROUP_BY
  | SELECT_HAVING | SELECT_ORDER_BY | SELECT_LIMIT | UPDATE_COLUMN | CREATE_TABLE
  | CREATE_TRIGGER | EXPR
deriving DecidableEq, Repr

/-- The template `CompletionHelper::cursorFitsInStatement` of completionhelper.h. -/
def cursorFitsInStatement (cursorPosition : Int) (stmt : Option SqliteStatement) : Bool :=
  match stmt with
  | none => false
  | some s =>
    match s.tokens.head?, s.tokens.getLast? with
    | some first, some last =>
      let startIdx := first.start
      let endIdx := last.endOffset
      decide (cursorPosition ≥ startIdx ∧ cursorPosition ≤ endIdx)
    | _, _ => false

/-- Modelled from the spec: a resolved table, `Table` of common/table.h (not among
the sources): a name with an optional database qualifier. -/
structure Table where
  database : Option String := none
  table : String
deriving DecidableEq, Repr

/-- Modelled from the spec: a FROM-clause member as the Select Resolver reports it
(selectresolver.h is not among the sources): the real table and the alias it is
referenced under, if any. -/
structure ResolvedTable where
  database : Option String := none
  table : String
  tableAlias : Option String := none
deriving DecidableEq, Repr

/-! ### Alias maps -/

/-- The member `tableToAlias`, a `QHash<QString,QStringList>`: real table name to the
aliases used for it. -/
abbrev TableToAlias := List (String × List String)

/-- The member `aliasToTable`, a `StrHash<Table>`: alias to real table, the alias
compared case-insensitively. -/
abbrev AliasToTable := List (String × Table)

/-- The lookup `tableToAlias[name]` (an absent key reads as the empty list). -/
def TableToAlias.aliases : TableToAlias → String → List String
  | [], _ => []
  | e :: es, name => if e.1 = name then e.2 else TableToAlias.aliases es name

/-- The update `tableToAlias[name] += tableAlias`. -/
def TableToAlias.add (name tableAlias : String) : TableToAlias → TableToAlias
  | [] => [(name, [tableAlias])]
  | e :: es =>
    if e.1 = name then (e.1, e.2 ++ [tableAlias]) :: es
    else e :: TableToAlias.add name tableAlias es

/-- Whether two alias spellings are the same key of the case-insensitive hash. -/
def sameAlias (a b : String) : Bool := decide (foldText a = foldText b)

/-- The update `aliasToTable[tableAlias] = t`: the binding of that alias, under any
spelling, is replaced (the last registered binding wins). -/
def AliasToTable.set (tableAlias : String) (t : Table) (m : AliasToTable) : AliasToTable :=
  (tableAlias, t) :: m.filter (fun e => !sameAlias e.1 tableAlias)

/-- Registration of one FROM-clause member in both maps: nothing for a member
without alias; otherwise the alias joins the aliases of the real table (once) and is
bound to the real table. -/
def registerAlias (maps : TableToAlias × AliasToTable) (r : ResolvedTable) :
    TableToAlias × AliasToTable :=
  match r.tableAlias with
  | none => maps
  | some a =>
    let t2a :=
      if a ∈ TableToAlias.aliases maps.1 r.table then maps.1
      else TableToAlias.add r.table a maps.1
    (t2a, AliasToTable.set a ⟨r.database, r.table⟩ maps.2)

/-- Modelled from the spec: the body of `CompletionHelper::extractTableAliasMap`
(declared in completionhelper.h, defined in the absent completionhelper.cpp).  "For
each FROM-clause item ... register (realName, alias-or-none) in the alias maps"; the
maps are "rebuilt per completion request", so the registration starts from empty maps. -/
def extractTableAliasMap (tables : List ResolvedTable) : TableToAlias × AliasToTable :=
  tables.foldl registerAlias ([], [])

/-- The invariant of the alias maps: every alias bound in alias-to-table is among the
aliases that table-to-alias lists for the name of the table it is bound to. -/
def AliasInvariant (maps : TableToAlias × AliasToTable) : Prop :=
  ∀ a t, (a, t) ∈ maps.2 → a ∈ TableToAlias.aliases maps.1 t.table

/-! ### The completion request -/

end CompletionHelper

/-- The members of a `CompletionHelper` object (completionhelper.h) that a completion
request reads or rebuilds: the SQL text and cursor it was constructed with, the
classified context (initially `NONE`), both alias maps and the favoured column names. -/
structure CompletionHelper where
  fullSql : String
  cursorPosition : Int
  context : CompletionHelper.Context := CompletionHelper.Context.NONE
  tableToAlias : CompletionHelper.TableToAlias := []
  aliasToTable : CompletionHelper.AliasToTable := []
  favoredColumnNames : List String := []
deriving DecidableEq, Repr

namespace CompletionHelper

/-- Modelled from the spec: the external collaborators of a completion request, which
the spec consumes through narrow contracts (tokenizer, parser, schema and select
resolver, keyword catalogs); none of them is among the sources.  One value of this
record stands for one database schema: an unchanged schema is the same record. -/
structure Collaborators where
  /-- Tokenizer, parser and step 1 of the classifier: the statement located for the
  cursor in the SQL text, if any. -/
  locate : String → Int → Option SqliteStatement
  /-- Prefix extraction on the text before the cursor: the partially typed token and
  whether it stands inside an open quoting delimiter. -/
  startedToken : String → String × Bool
  /-- Steps 2 to 4 of the classifier on a located statement. -/
  classifyStatement : Int → SqliteStatement → Context
  /-- Select Resolver: the FROM-clause members in scope at the cursor. -/
  resolveTables : Option SqliteStatement → Int → List ResolvedTable
  /-- Column names already written in a CREATE TABLE statement. -/
  createTableColumns : Option SqliteStatement → List String
  /-- Candidate generator: the flat candidate list of the branch of the context. -/
  generate : Context → TableToAlias → AliasToTable → List String →
    Option SqliteStatement → Int → List ExpectedToken
  /-- Whether a keyword can follow the token before the cursor. -/
  keywordFollows : Option SqliteStatement → Int → String → Bool

/-- The text `fullSql.mid(0, cursorPosition)`. -/
def textBeforeCursor (fullSql : String) (cursorPosition : Int) : String :=
  ⟨fullSql.data.take cursorPosition.toNat⟩

/-- Modelled from the spec: the edge case of the classifier, "an empty statement or a
cursor at offset 0". -/
def isEdgeCase (cursorOffset : Int) (stmt : Option SqliteStatement) : Bool :=
  match stmt with
  | none => true
  | some s => s.tokens.isEmpty || decide (cursorOffset = 0)

/-- Modelled from the spec: the Completion Context Classifier (its code, in
completionhelper.cpp, is not among the sources).  The edge case "yields context NONE";
otherwise the located statement is classified by steps 2 to 4. -/
def classify (env : Collaborators) (cursorOffset : Int) (stmt : Option SqliteStatement) :
    Context :=
  match stmt with
  | none => Context.NONE
  | some s =>
    if isEdgeCase cursorOffset (some s) then Context.NONE
    else env.classifyStatement cursorOffset s

/-- Modelled from the spec: prefix extraction (`removeStartedToken`, declared in
completionhelper.h).  The edge case yields "an empty partial token"; otherwise the
partial token is the one started in the text before the cursor. -/
def extractPartialToken (env : Collaborators) (fullSql : String) (cursorOffset : Int)
    (stmt : Option SqliteStatement) : String × Bool :=
  if isEdgeCase cursorOffset stmt then ("", false)
  else env.startedToken (textBeforeCursor fullSql cursorOffset)

/-- Modelled from the spec: the body of `CompletionHelper::filterContextKeywords`
(declared in completionhelper.h): "remove keyword candidates that cannot syntactically
follow the immediately preceding token". -/
def filterContextKeywords (env : Collaborators) (stmt : Option SqliteStatement)
    (cursorOffset : Int) (results : List ExpectedToken) : List ExpectedToken :=
  results.filter (fun t =>
    !(decide (t.type = ExpectedTokenType.KEYWORD)) || env.keywordFollows stmt cursorOffset t.value)

/-- Modelled from the spec: the post-processing pipeline after prefix extraction, in
the order the spec gives: filter by prefix, context-keyword filtering, duplicate
filtering, sort. -/
def postProcess (env : Collaborators) (stmt : Option SqliteStatement) (cursorOffset : Int)
    (partialToken : String) (candidates : List ExpectedToken) : List ExpectedToken :=
  sort (filterDuplicates
    (filterContextKeywords env stmt cursorOffset (applyFilter candidates partialToken)))

/-- Modelled from the spec: the per-request state of the helper after classification
and scope resolution: context, alias maps and favoured column names, all rebuilt from
the SQL text and the cursor ("created fresh for each completion request"). -/
def prepare (env : Collaborators) (h : CompletionHelper) : CompletionHelper :=
  let stmt := env.locate h.fullSql h.cursorPosition
  let maps := extractTableAliasMap (env.resolveTables stmt h.cursorPosition)
  { h with
    context := classify env h.cursorPosition stmt
    tableToAlias := maps.1
    aliasToTable := maps.2
    favoredColumnNames := env.createTableColumns stmt }

/-- Modelled from the spec: the flat candidate list of a request before
post-processing, generated from the rebuilt state. -/
def generatedCandidates (env : Collaborators) (h : CompletionHelper) : List ExpectedToken :=
  let p := prepare env h
  env.generate p.context p.tableToAlias p.aliasToTable p.favoredColumnNames
    (env.locate h.fullSql h.cursorPosition) h.cursorPosition

/-- Modelled from the spec: the body of `CompletionHelper::getExpectedTokens()` (declared
in completionhelper.h, defined in the absent completionhelper.cpp): classification,
scope resolution, candidate generation and post-processing.  Returns the helper with
its rebuilt members and the `Results`. -/
def getExpectedTokens (env : Collaborators) (h : CompletionHelper) :
    CompletionHelper × Results :=
  let stmt := env.locate h.fullSql h.cursorPosition
  let started := extractPartialToken env h.fullSql h.cursorPosition stmt
  (prepare env h,
   { expectedTokens :=
       postProcess env stmt h.cursorPosition started.1 (generatedCandidates env h)
     partialToken := started.1
     wrappedToken := started.2 })

/-! ### A small request for the examples -/

/-- Example collaborators: a schema with the tables `users`, `orders` and `accounts`.
Every non-empty text is one statement of one token; the started token is the run of
letters and digits that ends the text before the cursor; the keyword `FROM` cannot
follow. -/
def exampleCollaborators : Collaborators where
  locate := fun sql _ =>
    if sql.data.isEmpty then none
    else some ⟨[⟨TokenType.OTHER, sql, 0, sql.data.length⟩]⟩
  startedToken := fun text => (⟨(text.data.reverse.takeWhile Char.isAlphanum).reverse⟩, false)
  classifyStatement := fun _ _ => Context.SELECT_WHERE
  resolveTables := fun _ _ =>
    [⟨none, "users", some "u"⟩, ⟨none, "orders", some "o"⟩, ⟨none, "accounts", some "U"⟩,
     ⟨none, "orders", none⟩]
  createTableColumns := fun _ => []
  generate := fun _ _ _ _ _ _ =>
    [⟨ExpectedTokenType.KEYWORD, "NATURAL", none, none, none, 9⟩,
     ⟨ExpectedTokenType.COLUMN, "name", some "users", none, none, 5⟩,
     ⟨ExpectedTokenType.COLUMN, "id", some "users", none, none, 7⟩,
     ⟨ExpectedTokenType.COLUMN, "name", some "users", some "users.name", none, 7⟩,
     ⟨ExpectedTokenType.COLUMN, "Nadir", some "users", none, none, 7⟩,
     ⟨ExpectedTokenType.KEYWORD, "NATURAL", none, none, none, 1⟩]
  keywordFollows := fun _ _ keyword => keyword.data != "FROM".data

/-- Example text `SELECT 1;SELECT 2`, tokenized into half-open ranges: its first
statement, offsets 0 to 9. -/
def exampleEarlier : SqliteStatement :=
  ⟨[⟨TokenType.KEYWORD, "SELECT", 0, 6⟩, ⟨TokenType.SPACE, " ", 6, 7⟩,
    ⟨TokenType.NUMBER, "1", 7, 8⟩, ⟨TokenType.OPERATOR, ";", 8, 9⟩]⟩

/-- The second statement of `SELECT 1;SELECT 2`, offsets 9 to 17. -/
def exampleLater : SqliteStatement :=
  ⟨[⟨TokenType.KEYWORD, "SELECT", 9, 15⟩, ⟨TokenType.SPACE, " ", 15, 16⟩,
    ⟨TokenType.NUMBER, "2", 16, 17⟩]⟩

/-- Example request: `SELECT * FROM users WHERE na` with the cursor at the end. -/
def exampleHelper : CompletionHelper :=
  { fullSql := "SELECT * FROM users WHERE na", cursorPosition := 28 }

/-- The same request on a helper whose other members hold leftovers. -/
def usedHelper : CompletionHelper :=
  { fullSql := "SELECT * FROM users WHERE na", cursorPosition := 28,
    context := Context.CREATE_TABLE, tableToAlias := [("t", ["x"])],
    aliasToTable := [("x", ⟨none, "t"⟩)], favoredColumnNames := ["a", "b"] }

end CompletionHelper

/-! ## The SQLite 3 database plugin -/

namespace DbPluginSqlite3

/-- The behaviour of a `DbSqlite3` object as far as `getInstance` uses it
(db/dbsqlite3.h is not among the sources), over a state `σ` of the object: the
constructor, `open()` with its result, `exec(query)` with the `isError()` of its
results, and `close()`. -/
structure DbSqlite3 (σ : Type) where
  create : String → String → List (String × String) → σ
  openDb : σ → Bool × σ
  exec : σ → String → Bool × σ
  closeDb : σ → σ

/-- What `getInstance` does to the object it created, in order. -/
inductive Call where
  | created
  | opened (ok : Bool)
  | executed (query : String) (isError : Bool)
  | closed
  | deleted
deriving DecidableEq, Repr

/-- The query `getInstance` probes the database file with. -/
def probeQuery : String := "SELECT * FROM sqlite_master"

/-- The function `DbPluginSqlite3::getInstance` of dbpluginsqlite3.cpp.  The result is
the returned pointer (`none` for `nullptr`, otherwise the state of the returned
object) and the calls made on the object. -/
def getInstance {σ : Type} (drv : DbSqlite3 σ) (name path : String)
    (options : List (String × String)) : Option σ × List Call :=
  let db := drv.create name path options
  let opened := drv.openDb db
  if !opened.1 then
    (none, [Call.created, Call.opened false, Call.deleted])
  else
    let results := drv.exec opened.2 probeQuery
    if results.1 then
      (none, [Call.created, Call.opened true, Call.executed probeQuery true, Call.deleted])
    else
      (some (drv.closeDb results.2),
       [Call.created, Call.opened true, Call.executed probeQuery false, Call.closed])

/-- Qt's `QFileInfo::fileName()`: the path without its directory part, that is what
follows the last `/`. -/
def fileName (path : List Char) : List Char :=
  (path.reverse.takeWhile (fun c => c != '/')).reverse

/-- Qt's `QFileInfo::baseName()`: the characters of the file name up to, not
including, its first `.`. -/
def baseName (path : List Char) : List Char :=
  (fileName path).takeWhile (fun c => c != '.')

/-- The function `DbPluginSqlite3::generateDbName` of dbpluginsqlite3.cpp; the
argument is `baseValue.toString()`. -/
def generateDbName (baseValue : String) : String :=
  ⟨baseName baseValue.data⟩

/-- Example object for `getInstance`: the state is (the file is a database, the
object is open); every file but `broken.db` is a database, opening succeeds, and the
probe query fails on a file that is no database. -/
def exampleDb : DbSqlite3 (Bool × Bool) where
  create := fun _ path _ => (path.data != "broken.db".data, false)
  openDb := fun s => (true, (s.1, true))
  exec := fun s _ => (!s.1, s)
  closeDb := fun s => (s.1, false)

end DbPluginSqlite3

/-! ## The console command `query` -/

namespace CliCommandSql

/-- What the console knows of a database: its name and whether it is open. -/
structure Db where
  name : String
  isOpen : Bool
deriving DecidableEq, Repr

/-- The console as the command sees it: `cli->getCurrentDb()`, null or a database. -/
structure Cli where
  currentDb : Option Db
deriving DecidableEq, Repr

/-- What the command does that can be observed. -/
inductive Effect where
  /-- `printUsage()`: the usage text of the command. -/
  | usagePrinted (text : String)
  /-- `println(text)`. -/
  | println (text : String)
  /-- A `QueryExecutor` was created for a database and a query and started. -/
  | executorStarted (db : Db) (query : String)
  /-- Text written to `qOut`. -/
  | out (text : String)
  /-- The signal `execComplete()`. -/
  | execComplete
deriving DecidableEq, Repr

/-- The later outcome of a started query: the executor fails with a code and a
message, or it calls the results handler with results that may carry an error flag. -/
inductive QueryOutcome where
  | failed (code : Int) (msg : String)
  | finished (isError : Bool) (columns : List String) (rows : List (List String))
deriving DecidableEq, Repr

/-- The translation `tr(text)`, taken as the source text. -/
def tr (text : String) : String := text

/-- The function `CliCommandSql::usage`. -/
def usage : String := "query " ++ tr "<sql>"

def notOpenMessage : String := tr "Database is not open."

def noWorkingDbMessage : String :=
  tr ("No working database is set.\n" ++
      "Call .use command to set working database.\n" ++
      "Call .dblist to see list of all databases.")

/-- The function `CliCommandSql::validate` of clicommandsql.cpp: the returned flag and
what was printed. -/
def validate (cli : Cli) (args : List String) : Bool × List Effect :=
  if args.length ≠ 1 then
    (false, [Effect.usagePrinted usage])
  else if cli.currentDb.isNone then
    (false, [Effect.println noWorkingDbMessage])
  else
    (true, [])

/-- The text `s.left(n)`. -/
def left (s : String) (n : Nat) : String := ⟨s.data.take n⟩

/-- The results handler passed to `executor->exec` in `execute`: nothing for results
flagged as error, otherwise a header line and one line per row, every cell cut to
`maxLength` characters and followed by `|`. -/
def resultsHandler (maxLength : Nat) (isError : Bool) (columns : List String)
    (rows : List (List String)) : List Effect :=
  if isError then []
  else
    (columns.map (fun c => Effect.out (left c maxLength ++ "|"))) ++ [Effect.out "\n"] ++
    (rows.map (fun row =>
        (row.map (fun v => Effect.out (left v maxLength ++ "|"))) ++ [Effect.out "\n"])).flatten

/-- The slot `CliCommandSql::executionFailed`. -/
def executionFailed (_code : Int) (msg : String) : List Effect :=
  [Effect.out ("Query execution error: " ++ msg), Effect.out "\n\n"]

/-- What a started executor does once the query is over, through the handler and the
connections made in `execute`. -/
def afterExecution (maxLength : Nat) : QueryOutcome → List Effect
  | QueryOutcome.failed code msg => executionFailed code msg ++ [Effect.execComplete]
  | QueryOutcome.finished isError columns rows =>
    resultsHandler maxLength isError columns rows ++ [Effect.execComplete]

/-- The function `CliCommandSql::execute` of clicommandsql.cpp, followed by the end of
the started query.  `maxLength` is the configured `ColumnMaxWidth`.  The result is
`none` when `args[0]` is read from an empty list, otherwise the returned flag and the
effects in order. -/
def execute (cli : Cli) (maxLength : Nat) (outcome : QueryOutcome) (args : List String) :
    Option (Bool × List Effect) :=
  match cli.currentDb with
  | none => some (false, [Effect.println notOpenMessage])
  | some db =>
    if !db.isOpen then some (false, [Effect.println notOpenMessage])
    else
      match args with
      | [] => none
      | query :: _ =>
        some (true, Effect.executorStarted db query :: afterExecution maxLength outcome)

end CliCommandSql

/-! ## The simple SQL formatter plugin -/

namespace SqlFormatterSimplePlugin

open CompletionHelper (Token TokenType SqliteStatement)

/-- The two options of the plugin that `format` reads,
`cfg.SqlFormatterSimple.UpperCaseKeywords` and `cfg.SqlFormatterSimple.TrimLongSpaces`. -/
structure Config where
  UpperCaseKeywords : Bool
  TrimLongSpaces : Bool
deriving DecidableEq, Repr

/-- The text `value.toUpper()`, character by character.  Qt maps through Unicode; the
embedding maps the ASCII letters. -/
def toUpper (value : String) : String := ⟨value.data.map Char.toUpper⟩

/-- The body of the loop of `SqlFormatterSimplePlugin::format`
(sqlformattersimpleplugin.cpp) on one token: both `if` statements in order, each
assigning to `value` only. -/
def formatToken (cfg : Config) (token : Token) : Token :=
  let token :=
    if token.type = TokenType.KEYWORD ∧ cfg.UpperCaseKeywords = true then
      { token with value := toUpper token.value }
    else token
  if token.type = TokenType.SPACE ∧ cfg.TrimLongSpaces = true ∧ token.value.length > 1 then
    { token with value := " " }
  else token

/-- The tokens after the loop of `format`, which assigns through the token pointers. -/
def formatTokens (cfg : Config) (tokens : List Token) : List Token :=
  tokens.map (formatToken cfg)

/-- Modelled from the spec: `TokenList::detokenize` (parser/token.h is not among the
sources).  Tokens "partition the input with no gaps", so the text of a token list is
its values joined in order. -/
def detokenize (tokens : List Token) : String :=
  tokens.foldl (fun str token => str ++ token.value) ""

/-- The function `SqlFormatterSimplePlugin::format` of sqlformattersimpleplugin.cpp on
a query that is not null. -/
def format (cfg : Config) (query : SqliteStatement) : String :=
  detokenize (formatTokens cfg query.tokens)

/-- Example query: `select  *` and a line break, `from   t`. -/
def exampleQuery : SqliteStatement :=
  ⟨[⟨TokenType.KEYWORD, "select", 0, 6⟩, ⟨TokenType.SPACE, "  ", 6, 8⟩,
    ⟨TokenType.OPERATOR, "*", 8, 9⟩, ⟨TokenType.SPACE, "\n", 9, 10⟩,
    ⟨TokenType.KEYWORD, "from", 10, 14⟩, ⟨TokenType.SPACE, "   ", 14, 17⟩,
    ⟨TokenType.IDENTIFIER, "t", 17, 18⟩]⟩

end SqlFormatterSimplePlugin

/-! ## Start-up of the application core -/

namespace Core

end Core

/-! ## Theorems -/

namespace CompletionHelper


theorem startsWithCI_iff (s p : String) :
    startsWithCI s p = true ↔ foldText p <+: foldText s := by
  unfold startsWithCI
  exact List.isPrefixOf_iff_prefix

theorem startsWithCI_empty (s : String) : startsWithCI s "" = true := by
  rw [startsWithCI_iff]
  exact List.nil_prefix

/-- C1: every candidate of the filtered result (`Results::filtered`, that is
`applyFilter` with the partial token as filter) has a value that starts with the
partial token under case-insensitive comparison; the filtered result is a sublist of
the candidates; and with an empty partial token no candidate is removed. -/
theorem filtered_prefix_law (r : Results) :
    (∀ t ∈ r.filtered, foldText r.partialToken <+: foldText t.value) ∧
    r.filtered.Sublist r.expectedTokens ∧
    (r.partialToken = "" → r.filtered = r.expectedTokens) := by
  refine ⟨?_, ?_, ?_⟩
  · intro t ht
    have h := (List.mem_filter.mp ht).2
    exact (startsWithCI_iff _ _).mp h
  · exact List.filter_sublist _
  · intro h
    unfold Results.filtered applyFilter
    rw [h]
    exact List.filter_eq_self.mpr (fun t _ => startsWithCI_empty t.value)

/-- Witness of C1: with the partial token `se` the candidates `SELECT` and `Set` stay
and `FROM` goes, and with the empty partial token all three stay. -/
theorem filtered_prefix_law_witness :
    foldText "se" <+: foldText "SELECT" ∧
    Results.filtered
      { expectedTokens := [⟨ExpectedTokenType.KEYWORD, "SELECT", none, none, none, 0⟩,
                           ⟨ExpectedTokenType.KEYWORD, "FROM", none, none, none, 0⟩],
        partialToken := "" } =
      [⟨ExpectedTokenType.KEYWORD, "SELECT", none, none, none, 0⟩,
       ⟨ExpectedTokenType.KEYWORD, "FROM", none, none, none, 0⟩] :=
  ⟨(filtered_prefix_law
      { expectedTokens := [⟨ExpectedTokenType.KEYWORD, "SELECT", none, none, none, 0⟩,
                           ⟨ExpectedTokenType.KEYWORD, "FROM", none, none, none, 0⟩,
                           ⟨ExpectedTokenType.KEYWORD, "Set", none, none, none, 0⟩],
        partialToken := "se" }).1
      ⟨ExpectedTokenType.KEYWORD, "SELECT", none, none, none, 0⟩ (by decide),
   (filtered_prefix_law
      { expectedTokens := [⟨ExpectedTokenType.KEYWORD, "SELECT", none, none, none, 0⟩,
                           ⟨ExpectedTokenType.KEYWORD, "FROM", none, none, none, 0⟩],
        partialToken := "" }).2.2 rfl⟩

/-! ### Duplicate filtering -/

theorem keepBest_keys (t : ExpectedToken) (l : List ExpectedToken) :
    (keepBest t l).map ExpectedToken.key =
      if t.key ∈ l.map ExpectedToken.key then l.map ExpectedToken.key
      else l.map ExpectedToken.key ++ [t.key] := by
  induction l with
  | nil => simp [keepBest]
  | cons u us ih =>
    unfold keepBest
    by_cases hk : u.key = t.key
    · by_cases hp : u.priority < t.priority <;> simp [hk, hp]
    · have hk2 : ¬ t.key = u.key := fun h => hk h.symm
      simp only [hk, if_false, List.map_cons, ih, List.mem_cons, hk2, false_or]
      by_cases hm : t.key ∈ us.map ExpectedToken.key <;> simp [hm]

theorem keepBest_nodup (t : ExpectedToken) (l : List ExpectedToken)
    (h : (l.map ExpectedToken.key).Nodup) : ((keepBest t l).map ExpectedToken.key).Nodup := by
  rw [keepBest_keys]
  by_cases hm : t.key ∈ l.map ExpectedToken.key
  · simpa [hm] using h
  · simp only [hm, if_false]
    exact List.Nodup.append h (List.nodup_singleton _) (by simpa using hm)

theorem keepBest_mem (t u : ExpectedToken) (l : List ExpectedToken)
    (h : u ∈ keepBest t l) : u = t ∨ u ∈ l := by
  induction l with
  | nil => simpa [keepBest] using h
  | cons v vs ih =>
    unfold keepBest at h
    by_cases hk : v.key = t.key
    · by_cases hp : v.priority < t.priority
      · simp only [hk, hp, if_true, List.mem_cons] at h
        rcases h with h | h
        · exact Or.inl h
        · exact Or.inr (List.mem_cons_of_mem _ h)
      · simp only [hk, hp, if_true, if_false] at h
        exact Or.inr h
    · simp only [hk, if_false, List.mem_cons] at h
      rcases h with h | h
      · exact Or.inr (h ▸ List.mem_cons_self _ _)
      · rcases ih h with h2 | h2
        · exact Or.inl h2
        · exact Or.inr (List.mem_cons_of_mem _ h2)

/-- After `t` joined, `t` has a representative of at least its priority. -/
theorem keepBest_covers_new (t : ExpectedToken) (l : List ExpectedToken) :
    ∃ u ∈ keepBest t l, u.key = t.key ∧ t.priority ≤ u.priority := by
  induction l with
  | nil => exact ⟨t, by simp [keepBest], rfl, le_refl _⟩
  | cons v vs ih =>
    unfold keepBest
    by_cases hk : v.key = t.key
    · by_cases hp : v.priority < t.priority
      · exact ⟨t, by simp [hk, hp], rfl, le_refl _⟩
      · exact ⟨v, by simp [hk, hp], hk, not_lt.mp hp⟩
    · obtain ⟨u, hu, huk, hup⟩ := ih
      exact ⟨u, by simp [hk, hu], huk, hup⟩

/-- After `t` joined, every candidate kept before still has a representative of at
least its priority. -/
theorem keepBest_covers_old (t v : ExpectedToken) (l : List ExpectedToken) (hv : v ∈ l) :
    ∃ u ∈ keepBest t l, u.key = v.key ∧ v.priority ≤ u.priority := by
  induction l with
  | nil => cases hv
  | cons w ws ih =>
    unfold keepBest
    by_cases hk : w.key = t.key
    · by_cases hp : w.priority < t.priority
      · rcases List.mem_cons.mp hv with h | h
        · subst h
          exact ⟨t, by simp [hk, hp], hk.symm, le_of_lt hp⟩
        · exact ⟨v, by simp [hk, hp, h], rfl, le_refl _⟩
      · exact ⟨v, by simpa [hk, hp] using hv, rfl, le_refl _⟩
    · rcases List.mem_cons.mp hv with h | h
      · subst h
        exact ⟨v, by simp [hk], rfl, le_refl _⟩
      · obtain ⟨u, hu, huk, hup⟩ := ih h
        exact ⟨u, by simp [hk, hu], huk, hup⟩

/-- The three facts that duplicate filtering maintains, from any candidates kept so
far: distinct triples, only candidates that came in, and a representative of at least
the same priority for every candidate that came in. -/
theorem foldl_keepBest (input kept : List ExpectedToken)
    (hnd : (kept.map ExpectedToken.key).Nodup) :
    let out := input.foldl (fun kept t => keepBest t kept) kept
    (out.map ExpectedToken.key).Nodup ∧
    (∀ u ∈ out, u ∈ kept ∨ u ∈ input) ∧
    (∀ c, c ∈ kept ∨ c ∈ input → ∃ u ∈ out, u.key = c.key ∧ c.priority ≤ u.priority) := by
  induction input generalizing kept with
  | nil =>
    refine ⟨hnd, fun u hu => Or.inl hu, ?_⟩
    intro c hc
    rcases hc with hc | hc
    · exact ⟨c, hc, rfl, le_refl _⟩
    · cases hc
  | cons t ts ih =>
    obtain ⟨h1, h2, h3⟩ := ih (keepBest t kept) (keepBest_nodup t kept hnd)
    refine ⟨h1, ?_, ?_⟩
    · intro u hu
      rcases h2 u hu with h | h
      · rcases keepBest_mem t u kept h with h | h
        · exact Or.inr (h ▸ List.mem_cons_self _ _)
        · exact Or.inl h
      · exact Or.inr (List.mem_cons_of_mem _ h)
    · intro c hc
      have step : ∃ m ∈ keepBest t kept, m.key = c.key ∧ c.priority ≤ m.priority ∨
          c ∈ ts := by
        rcases hc with hc | hc
        · obtain ⟨m, hm, hmk, hmp⟩ := keepBest_covers_old t c kept hc
          exact ⟨m, hm, Or.inl ⟨hmk, hmp⟩⟩
        · rcases List.mem_cons.mp hc with h | h
          · subst h
            obtain ⟨m, hm, hmk, hmp⟩ := keepBest_covers_new c kept
            exact ⟨m, hm, Or.inl ⟨hmk, hmp⟩⟩
          · obtain ⟨m, hm, _⟩ := keepBest_covers_new t kept
            exact ⟨m, hm, Or.inr h⟩
      obtain ⟨m, hm, hcase⟩ := step
      rcases hcase with ⟨hmk, hmp⟩ | hts
      · obtain ⟨u, hu, huk, hup⟩ := h3 m (Or.inl hm)
        exact ⟨u, hu, huk.trans hmk, le_trans hmp hup⟩
      · exact h3 c (Or.inr hts)

theorem filterDuplicates_spec (input : List ExpectedToken) :
    ((filterDuplicates input).map ExpectedToken.key).Nodup ∧
    (∀ u ∈ filterDuplicates input, u ∈ input) ∧
    (∀ c ∈ input, ∃ u ∈ filterDuplicates input, u.key = c.key ∧ c.priority ≤ u.priority) := by
  obtain ⟨h1, h2, h3⟩ := foldl_keepBest input [] (by simp)
  refine ⟨h1, ?_, fun c hc => h3 c (Or.inr hc)⟩
  intro u hu
  rcases h2 u hu with h | h
  · cases h
  · exact h

/-- Among candidates with distinct triples, the triple names the candidate. -/
theorem eq_of_key_eq {l : List ExpectedToken} (hnd : (l.map ExpectedToken.key).Nodup)
    {u v : ExpectedToken} (hu : u ∈ l) (hv : v ∈ l) (h : u.key = v.key) : u = v :=
  List.inj_on_of_nodup_map hnd hu hv h

/-! ### Sorting -/

theorem lexLE_total (x y : List Nat) : lexLE x y = true ∨ lexLE y x = true := by
  induction x generalizing y with
  | nil => left; simp [lexLE]
  | cons a as ih =>
    cases y with
    | nil => right; simp [lexLE]
    | cons b bs =>
      simp only [lexLE, Bool.or_eq_true, Bool.and_eq_true, decide_eq_true_eq]
      rcases Nat.lt_trichotomy a b with h | h | h
      · exact Or.inl (Or.inl h)
      · rcases ih bs with h2 | h2
        · exact Or.inl (Or.inr ⟨h, h2⟩)
        · exact Or.inr (Or.inr ⟨h.symm, h2⟩)
      · exact Or.inr (Or.inl h)

theorem lexLE_trans (x y z : List Nat) (hxy : lexLE x y = true) (hyz : lexLE y z = true) :
    lexLE x z = true := by
  induction x generalizing y z with
  | nil => simp [lexLE]
  | cons a as ih =>
    cases y with
    | nil => simp [lexLE] at hxy
    | cons b bs =>
      cases z with
      | nil => simp [lexLE] at hyz
      | cons c cs =>
        simp only [lexLE, Bool.or_eq_true, Bool.and_eq_true, decide_eq_true_eq] at hxy hyz ⊢
        rcases hxy with h1 | ⟨h1, h1r⟩ <;> rcases hyz with h2 | ⟨h2, h2r⟩
        · exact Or.inl (lt_trans h1 h2)
        · exact Or.inl (h2 ▸ h1)
        · exact Or.inl (h1 ▸ h2)
        · exact Or.inr ⟨h1.trans h2, ih bs cs h1r h2r⟩

theorem sortsBefore_iff (a b : ExpectedToken) :
    sortsBefore a b = true ↔
      b.priority < a.priority ∨ (a.priority = b.priority ∧ lexLECI a.value b.value = true) := by
  simp [sortsBefore]

theorem sortsBefore_total (a b : ExpectedToken) :
    sortsBefore a b = true ∨ sortsBefore b a = true := by
  rw [sortsBefore_iff, sortsBefore_iff]
  rcases lt_trichotomy a.priority b.priority with h | h | h
  · exact Or.inr (Or.inl h)
  · rcases lexLE_total ((foldText a.value).map Char.toNat) ((foldText b.value).map Char.toNat)
      with h2 | h2
    · exact Or.inl (Or.inr ⟨h, h2⟩)
    · exact Or.inr (Or.inr ⟨h.symm, h2⟩)
  · exact Or.inl (Or.inl h)

theorem sortsBefore_trans (a b c : ExpectedToken) (hab : sortsBefore a b = true)
    (hbc : sortsBefore b c = true) : sortsBefore a c = true := by
  rw [sortsBefore_iff] at hab hbc ⊢
  rcases hab with h1 | ⟨h1, h1r⟩ <;> rcases hbc with h2 | ⟨h2, h2r⟩
  · exact Or.inl (lt_trans h2 h1)
  · exact Or.inl (h2 ▸ h1)
  · exact Or.inl (h1 ▸ h2)
  · exact Or.inr ⟨h1.trans h2, lexLE_trans _ _ _ h1r h2r⟩

theorem sort_perm (l : List ExpectedToken) : (sort l).Perm l :=
  List.perm_insertionSort _ l

theorem sort_pairwise (l : List ExpectedToken) :
    (sort l).Pairwise (fun a b => sortsBefore a b = true) := by
  haveI : IsTotal ExpectedToken (fun a b => sortsBefore a b = true) := ⟨sortsBefore_total⟩
  haveI : IsTrans ExpectedToken (fun a b => sortsBefore a b = true) := ⟨sortsBefore_trans⟩
  exact List.sorted_insertionSort _ l

/-! ### The results of a request -/

theorem mem_postProcess (env : Collaborators) (stmt : Option SqliteStatement)
    (cursorOffset : Int) (partialToken : String) (candidates : List ExpectedToken)
    (u : ExpectedToken) :
    u ∈ postProcess env stmt cursorOffset partialToken candidates ↔
      u ∈ filterDuplicates
        (filterContextKeywords env stmt cursorOffset (applyFilter candidates partialToken)) :=
  (sort_perm _).mem_iff

/-- Both filters that run before duplicate filtering read only the triple of a
candidate. -/
theorem passes_of_key_eq (env : Collaborators) (stmt : Option SqliteStatement)
    (cursorOffset : Int) (partialToken : String) (candidates : List ExpectedToken)
    (u c : ExpectedToken) (hk : c.key = u.key) (hc : c ∈ candidates)
    (hu : u ∈ filterContextKeywords env stmt cursorOffset (applyFilter candidates partialToken)) :
    c ∈ filterContextKeywords env stmt cursorOffset (applyFilter candidates partialToken) := by
  have ht : c.type = u.type := congrArg (fun k => k.1) hk
  have hv : c.value = u.value := congrArg (fun k => k.2.1) hk
  unfold filterContextKeywords applyFilter at hu ⊢
  rw [List.mem_filter, List.mem_filter] at hu ⊢
  obtain ⟨⟨_, h1⟩, h2⟩ := hu
  exact ⟨⟨hc, by rw [hv]; exact h1⟩, by rw [ht, hv]; exact h2⟩

/-- C2: in the `expectedTokens` returned by `getExpectedTokens` no two entries have the
same (type, value, contextInfo); every entry is one of the generated candidates and
has the highest priority among the generated candidates with its triple; and every
generated candidate that passes the prefix and the context-keyword filter has an entry
with its triple. -/
theorem getExpectedTokens_duplicate_free (env : Collaborators) (h : CompletionHelper) :
    ((getExpectedTokens env h).2.expectedTokens.map ExpectedToken.key).Nodup ∧
    (∀ u ∈ (getExpectedTokens env h).2.expectedTokens,
      u ∈ generatedCandidates env h ∧
      ∀ c ∈ generatedCandidates env h, c.key = u.key → c.priority ≤ u.priority) ∧
    (∀ c ∈ generatedCandidates env h,
      c ∈ filterContextKeywords env (env.locate h.fullSql h.cursorPosition) h.cursorPosition
            (applyFilter (generatedCandidates env h) (getExpectedTokens env h).2.partialToken) →
      ∃ u ∈ (getExpectedTokens env h).2.expectedTokens, u.key = c.key) := by
  simp only [getExpectedTokens]
  obtain ⟨h1, h2, h3⟩ := filterDuplicates_spec
    (filterContextKeywords env (env.locate h.fullSql h.cursorPosition) h.cursorPosition
      (applyFilter (generatedCandidates env h)
        (extractPartialToken env h.fullSql h.cursorPosition
          (env.locate h.fullSql h.cursorPosition)).1))
  refine ⟨?_, ?_, ?_⟩
  · exact ((sort_perm _).map ExpectedToken.key).nodup_iff.mpr h1
  · intro u hu
    rw [mem_postProcess] at hu
    have hin := h2 u hu
    have hgen : u ∈ generatedCandidates env h := by
      unfold filterContextKeywords applyFilter at hin
      exact (List.mem_filter.mp (List.mem_filter.mp hin).1).1
    refine ⟨hgen, ?_⟩
    intro c hc hk
    have hcin := passes_of_key_eq env _ _ _ _ u c hk hc hin
    obtain ⟨v, hv, hvk, hvp⟩ := h3 c hcin
    have : v = u := eq_of_key_eq h1 hv hu (hvk.trans hk)
    exact this ▸ hvp
  · intro c _ hcin
    obtain ⟨v, hv, hvk, _⟩ := h3 c hcin
    exact ⟨v, (mem_postProcess _ _ _ _ _ _).mpr hv, hvk⟩

/-- C3: the `expectedTokens` returned by `getExpectedTokens` are non-increasing in
priority, and of two entries with equal priority the earlier one comes first in the
case-insensitive lexicographic order of the values; this holds for every two entries,
adjacent ones included. -/
theorem getExpectedTokens_ordered (env : Collaborators) (h : CompletionHelper) :
    (getExpectedTokens env h).2.expectedTokens.Pairwise
      (fun a b => b.priority ≤ a.priority ∧
        (a.priority = b.priority → lexLECI a.value b.value = true)) := by
  simp only [getExpectedTokens, postProcess]
  refine (sort_pairwise _).imp ?_
  intro a b hab
  rcases (sortsBefore_iff a b).mp hab with hlt | ⟨heq, hlex⟩
  · exact ⟨le_of_lt hlt, fun heq => absurd hlt (by rw [heq]; exact lt_irrefl _)⟩
  · exact ⟨le_of_eq heq.symm, fun _ => hlex⟩

/-- C5: when the statement of the request is empty (none located, or one without
tokens) or the cursor is at offset 0, the classified context is `NONE` and the
returned `Results` has an empty partial token. -/
theorem edge_case_policy (env : Collaborators) (h : CompletionHelper)
    (hedge : (∀ s, env.locate h.fullSql h.cursorPosition = some s → s.tokens = []) ∨
      h.cursorPosition = 0) :
    (getExpectedTokens env h).1.context = Context.NONE ∧
    (getExpectedTokens env h).2.partialToken = "" := by
  have hcase : isEdgeCase h.cursorPosition (env.locate h.fullSql h.cursorPosition) = true := by
    cases hl : env.locate h.fullSql h.cursorPosition with
    | none => rfl
    | some s =>
      rcases hedge with he | he
      · simp [isEdgeCase, he s hl]
      · simp [isEdgeCase, he]
  constructor
  · simp only [getExpectedTokens, prepare, classify]
    cases hl : env.locate h.fullSql h.cursorPosition with
    | none => rfl
    | some s =>
      rw [hl] at hcase
      simp [hcase]
  · simp [getExpectedTokens, extractPartialToken, hcase]

/-! ### Alias maps -/

theorem aliases_add (name tableAlias : String) (m : TableToAlias) (n : String) :
    TableToAlias.aliases (TableToAlias.add name tableAlias m) n =
      if n = name then TableToAlias.aliases m n ++ [tableAlias]
      else TableToAlias.aliases m n := by
  induction m with
  | nil =>
    by_cases hn : n = name
    · simp [TableToAlias.add, TableToAlias.aliases, hn]
    · have hn2 : ¬ name = n := fun h => hn h.symm
      simp [TableToAlias.add, TableToAlias.aliases, hn, hn2]
  | cons e es ih =>
    unfold TableToAlias.add
    by_cases he : e.1 = name
    · by_cases hn : n = name
      · simp [TableToAlias.aliases, he, hn]
      · have hn2 : ¬ name = n := fun h => hn h.symm
        simp [TableToAlias.aliases, he, hn, hn2]
    · by_cases hen : e.1 = n
      · have hn : ¬ n = name := fun h => he (hen.trans h)
        simp [TableToAlias.aliases, he, hen, hn]
      · simp [TableToAlias.aliases, he, hen, ih]

/-- A name with an alias among its aliases has an entry in the map. -/
theorem entry_of_mem_aliases (m : TableToAlias) (n a : String)
    (h : a ∈ TableToAlias.aliases m n) : ∃ e ∈ m, e.1 = n ∧ a ∈ e.2 := by
  induction m with
  | nil => simp [TableToAlias.aliases] at h
  | cons e es ih =>
    unfold TableToAlias.aliases at h
    by_cases he : e.1 = n
    · simp only [he, if_true] at h
      exact ⟨e, List.mem_cons_self _ _, he, h⟩
    · simp only [he, if_false] at h
      obtain ⟨e2, he2, hk, ha⟩ := ih h
      exact ⟨e2, List.mem_cons_of_mem _ he2, hk, ha⟩

theorem registerAlias_invariant (maps : TableToAlias × AliasToTable) (r : ResolvedTable)
    (h : AliasInvariant maps) : AliasInvariant (registerAlias maps r) := by
  unfold registerAlias
  cases hr : r.tableAlias with
  | none => exact h
  | some a0 =>
    intro a t hat
    simp only [AliasToTable.set, List.mem_cons, List.mem_filter] at hat
    by_cases hin : a0 ∈ TableToAlias.aliases maps.1 r.table
    · simp only [hin, if_true]
      rcases hat with heq | ⟨hold, _⟩
      · cases heq
        exact hin
      · exact h a t hold
    · simp only [hin, if_false]
      rw [aliases_add]
      rcases hat with heq | ⟨hold, _⟩
      · cases heq
        simp
      · have := h a t hold
        by_cases hn : t.table = r.table
        · simp [hn] at this ⊢
          exact Or.inl this
        · simpa [hn] using this

theorem extractTableAliasMap_invariant (tables : List ResolvedTable) :
    AliasInvariant (extractTableAliasMap tables) := by
  have key : ∀ (ts : List ResolvedTable) (maps : TableToAlias × AliasToTable),
      AliasInvariant maps → AliasInvariant (ts.foldl registerAlias maps) := by
    intro ts
    induction ts with
    | nil => intro maps hm; exact hm
    | cons r rs ih => intro maps hm; exact ih _ (registerAlias_invariant maps r hm)
  exact key tables ([], []) (fun a t hat => by cases hat)

/-- C6: after the alias maps are built for a completion request, for every alias key
`a` of `aliasToTable`, bound to the table `t`, `tableToAlias` has an entry for the name
of `t` whose alias list contains `a`, and that list is the one the lookup
`tableToAlias[t.table]` reads. -/
theorem alias_map_invariant (env : Collaborators) (h : CompletionHelper) (a : String)
    (t : Table) (hbound : (a, t) ∈ (getExpectedTokens env h).1.aliasToTable) :
    (∃ e ∈ (getExpectedTokens env h).1.tableToAlias, e.1 = t.table ∧ a ∈ e.2) ∧
    a ∈ TableToAlias.aliases (getExpectedTokens env h).1.tableToAlias t.table := by
  have hinv := extractTableAliasMap_invariant
    (env.resolveTables (env.locate h.fullSql h.cursorPosition) h.cursorPosition)
  have hmem : a ∈ TableToAlias.aliases (getExpectedTokens env h).1.tableToAlias t.table :=
    hinv a t hbound
  exact ⟨entry_of_mem_aliases _ _ _ hmem, hmem⟩

/-! ### The example request -/

/-- Witness of C2: in the example the two `name` candidates of `users` collapse to the
one of priority 7, the two `NATURAL` keywords to the one of priority 9, and `id` does
not start with `na`. -/
theorem getExpectedTokens_duplicate_free_witness :
    (getExpectedTokens exampleCollaborators exampleHelper).2.expectedTokens =
      [⟨ExpectedTokenType.KEYWORD, "NATURAL", none, none, none, 9⟩,
       ⟨ExpectedTokenType.COLUMN, "Nadir", some "users", none, none, 7⟩,
       ⟨ExpectedTokenType.COLUMN, "name", some "users", some "users.name", none, 7⟩] ∧
    (5 : Int) ≤ 7 ∧
    (∃ u ∈ (getExpectedTokens exampleCollaborators exampleHelper).2.expectedTokens,
      u.key = (ExpectedTokenType.COLUMN, "name", some "users")) :=
  ⟨by decide,
   ((getExpectedTokens_duplicate_free exampleCollaborators exampleHelper).2.1
      ⟨ExpectedTokenType.COLUMN, "name", some "users", some "users.name", none, 7⟩
      (by decide)).2
      ⟨ExpectedTokenType.COLUMN, "name", some "users", none, none, 5⟩ (by decide) rfl,
   (getExpectedTokens_duplicate_free exampleCollaborators exampleHelper).2.2
      ⟨ExpectedTokenType.COLUMN, "name", some "users", none, none, 5⟩ (by decide) (by decide)⟩

/-- Witness of C3: in the example `Nadir` and `name` have priority 7 both, and `Nadir`
comes first case-insensitively. -/
theorem getExpectedTokens_ordered_witness : lexLECI "Nadir" "name" = true := by
  have hp := getExpectedTokens_ordered exampleCollaborators exampleHelper
  have heq : (getExpectedTokens exampleCollaborators exampleHelper).2.expectedTokens =
      [⟨ExpectedTokenType.KEYWORD, "NATURAL", none, none, none, 9⟩,
       ⟨ExpectedTokenType.COLUMN, "Nadir", some "users", none, none, 7⟩,
       ⟨ExpectedTokenType.COLUMN, "name", some "users", some "users.name", none, 7⟩] := by
    decide
  rw [heq] at hp
  have h2 := (List.pairwise_cons.mp (List.pairwise_cons.mp hp).2).1
    ⟨ExpectedTokenType.COLUMN, "name", some "users", some "users.name", none, 7⟩
    (List.mem_singleton.mpr rfl)
  exact h2.2 rfl

/-- Witness of C5: the example text with the cursor at offset 0, and the empty text,
on a helper that held another context before. -/
theorem edge_case_policy_witness :
    ((getExpectedTokens exampleCollaborators
        { usedHelper with cursorPosition := 0 }).1.context = Context.NONE ∧
     (getExpectedTokens exampleCollaborators
        { usedHelper with cursorPosition := 0 }).2.partialToken = "") ∧
    ((getExpectedTokens exampleCollaborators
        { usedHelper with fullSql := "", cursorPosition := 3 }).1.context = Context.NONE ∧
     (getExpectedTokens exampleCollaborators
        { usedHelper with fullSql := "", cursorPosition := 3 }).2.partialToken = "") :=
  ⟨edge_case_policy exampleCollaborators { usedHelper with cursorPosition := 0 } (Or.inr rfl),
   edge_case_policy exampleCollaborators { usedHelper with fullSql := "", cursorPosition := 3 }
     (Or.inl (fun s hs => by cases hs))⟩

/-- Witness of C6: in the example the alias `U` of `accounts` replaced the binding of
`u`, and `accounts` lists `U`. -/
theorem alias_map_invariant_witness :
    (∃ e ∈ (getExpectedTokens exampleCollaborators exampleHelper).1.tableToAlias,
      e.1 = "accounts" ∧ "U" ∈ e.2) ∧
    "U" ∈ TableToAlias.aliases
      (getExpectedTokens exampleCollaborators exampleHelper).1.tableToAlias "accounts" :=
  alias_map_invariant exampleCollaborators exampleHelper "U" ⟨none, "accounts"⟩ (by decide)

/-! ### The cursor and the token range of a statement -/

/-- The test of `cursorFitsInStatement` on a statement whose first and last token are
known: both bounds are inclusive. -/
theorem cursorFits_of_tokens (cursorPosition : Int) (s : SqliteStatement)
    (first last : Token) (hfirst : s.tokens.head? = some first)
    (hlast : s.tokens.getLast? = some last) :
    cursorFitsInStatement cursorPosition (some s) = true ↔
      first.start ≤ cursorPosition ∧ cursorPosition ≤ last.endOffset := by
  simp [cursorFitsInStatement, hfirst, hlast]

/-- C11: `cursorFitsInStatement` returns true exactly when the statement is not null,
has at least one token, and start of the first token <= cursor <= end of the last
token, both bounds inclusive; for a null statement and for one without tokens it is
false for every cursor position. -/
theorem cursorFitsInStatement_iff (cursorPosition : Int) (stmt : Option SqliteStatement) :
    (cursorFitsInStatement cursorPosition stmt = true ↔
      ∃ s first last, stmt = some s ∧ s.tokens ≠ [] ∧
        s.tokens.head? = some first ∧ s.tokens.getLast? = some last ∧
        first.start ≤ cursorPosition ∧ cursorPosition ≤ last.endOffset) ∧
    cursorFitsInStatement cursorPosition none = false ∧
    cursorFitsInStatement cursorPosition (some ⟨[]⟩) = false := by
  refine ⟨?_, rfl, rfl⟩
  cases stmt with
  | none => simp [cursorFitsInStatement]
  | some s =>
    cases htok : s.tokens with
    | nil => simp [cursorFitsInStatement, htok]
    | cons t ts =>
      have hne : t :: ts ≠ [] := List.cons_ne_nil t ts
      have hlast : (t :: ts).getLast? = some ((t :: ts).getLast hne) :=
        List.getLast?_eq_getLast _ hne
      constructor
      · intro h
        have hb := (cursorFits_of_tokens cursorPosition s t ((t :: ts).getLast hne)
          (by rw [htok]; rfl) (by rw [htok]; exact hlast)).mp h
        exact ⟨s, t, (t :: ts).getLast hne, rfl, by rw [htok]; exact hne,
          by rw [htok]; rfl, by rw [htok]; exact hlast, hb.1, hb.2⟩
      · rintro ⟨s2, first, last, hs, _, hfirst, hlast2, hlo, hhi⟩
        cases hs
        exact (cursorFits_of_tokens cursorPosition s first last hfirst hlast2).mpr ⟨hlo, hhi⟩

/-- Witness of C11: a statement with tokens from offset 3 to offset 12 contains the
cursor at 3 and at 12. -/
theorem cursorFitsInStatement_iff_witness :
    cursorFitsInStatement 3
      (some ⟨[⟨TokenType.KEYWORD, "SELECT", 3, 9⟩, ⟨TokenType.SPACE, " ", 9, 10⟩,
        ⟨TokenType.NUMBER, "17", 10, 12⟩]⟩) = true ∧
    cursorFitsInStatement 12
      (some ⟨[⟨TokenType.KEYWORD, "SELECT", 3, 9⟩, ⟨TokenType.SPACE, " ", 9, 10⟩,
        ⟨TokenType.NUMBER, "17", 10, 12⟩]⟩) = true :=
  ⟨(cursorFitsInStatement_iff 3 _).1.mpr
      ⟨_, ⟨TokenType.KEYWORD, "SELECT", 3, 9⟩, ⟨TokenType.NUMBER, "17", 10, 12⟩, rfl,
        by decide, rfl, rfl, by decide, by decide⟩,
   (cursorFitsInStatement_iff 12 _).1.mpr
      ⟨_, ⟨TokenType.KEYWORD, "SELECT", 3, 9⟩, ⟨TokenType.NUMBER, "17", 10, 12⟩, rfl,
        by decide, rfl, rfl, by decide, by decide⟩⟩

/-- C12, as the code has it: for two sibling statements with contiguous token ranges
(the end of the last token of the earlier one is the start of the first token of the
later one), the shared boundary is the only cursor offset for which
`cursorFitsInStatement` holds for both; at every other offset it holds for at most one
of them. -/
theorem cursorFits_both_iff_boundary (earlier later : SqliteStatement)
    (firstA lastA firstB lastB : Token) (cursorPosition : Int)
    (hfirstA : earlier.tokens.head? = some firstA)
    (hlastA : earlier.tokens.getLast? = some lastA)
    (hfirstB : later.tokens.head? = some firstB)
    (hlastB : later.tokens.getLast? = some lastB)
    (hcontiguous : lastA.endOffset = firstB.start) :
    (cursorFitsInStatement cursorPosition (some earlier) = true ∧
      cursorFitsInStatement cursorPosition (some later) = true ↔
        cursorPosition = lastA.endOffset ∧ firstA.start ≤ lastA.endOffset ∧
          firstB.start ≤ lastB.endOffset) ∧
    (cursorPosition ≠ lastA.endOffset →
      ¬ (cursorFitsInStatement cursorPosition (some earlier) = true ∧
        cursorFitsInStatement cursorPosition (some later) = true)) := by
  rw [cursorFits_of_tokens cursorPosition earlier firstA lastA hfirstA hlastA,
    cursorFits_of_tokens cursorPosition later firstB lastB hfirstB hlastB]
  constructor
  · constructor
    · rintro ⟨⟨h1, h2⟩, h3, h4⟩
      have hc : cursorPosition = lastA.endOffset := le_antisymm h2 (hcontiguous ▸ h3)
      exact ⟨hc, hc ▸ h1, by rw [← hcontiguous, ← hc]; exact h4⟩
    · rintro ⟨hc, h1, h2⟩
      subst hc
      exact ⟨⟨h1, le_refl _⟩, le_of_eq hcontiguous.symm, hcontiguous ▸ h2⟩
  · rintro hne ⟨⟨_, h2⟩, h3, _⟩
    exact hne (le_antisymm h2 (hcontiguous ▸ h3))

/-- Witness of C12 as amended: in `SELECT 1;SELECT 2` the statements meet at offset 9;
the cursor at 9 fits both, the cursor at 4 does not. -/
theorem cursorFits_both_iff_boundary_witness :
    (cursorFitsInStatement 9 (some exampleEarlier) = true ∧
      cursorFitsInStatement 9 (some exampleLater) = true) ∧
    ¬ (cursorFitsInStatement 4 (some exampleEarlier) = true ∧
      cursorFitsInStatement 4 (some exampleLater) = true) :=
  ⟨(cursorFits_both_iff_boundary exampleEarlier exampleLater
      ⟨TokenType.KEYWORD, "SELECT", 0, 6⟩ ⟨TokenType.OPERATOR, ";", 8, 9⟩
      ⟨TokenType.KEYWORD, "SELECT", 9, 15⟩ ⟨TokenType.NUMBER, "2", 16, 17⟩ 9
      rfl rfl rfl rfl rfl).1.mpr ⟨rfl, by decide, by decide⟩,
   (cursorFits_both_iff_boundary exampleEarlier exampleLater
      ⟨TokenType.KEYWORD, "SELECT", 0, 6⟩ ⟨TokenType.OPERATOR, ";", 8, 9⟩
      ⟨TokenType.KEYWORD, "SELECT", 9, 15⟩ ⟨TokenType.NUMBER, "2", 16, 17⟩ 4
      rfl rfl rfl rfl rfl).2 (by decide)⟩

/-- C12 as stated fails: in `SELECT 1;SELECT 2`, tokenized into half-open ranges, the
first statement ends at offset 9, where the second starts, and the cursor at offset 9
fits in both statements. -/
theorem cursorFits_not_unique :
    (exampleEarlier.tokens.getLast?.map (fun t => t.endOffset) = some 9 ∧
      exampleLater.tokens.head?.map (fun t => t.start) = some 9) ∧
    cursorFitsInStatement 9 (some exampleEarlier) = true ∧
    cursorFitsInStatement 9 (some exampleLater) = true := by
  decide

/-! ### The context of a request -/

/-- C13: the completion context is one value of a closed set of twelve distinct values
(NONE, SELECT result column, SELECT FROM, SELECT WHERE, SELECT GROUP BY, SELECT HAVING,
SELECT ORDER BY, SELECT LIMIT, UPDATE column, CREATE TABLE, CREATE TRIGGER, generic
expression) and nothing else; a helper constructed for a request starts with context
NONE, and the context member of a helper holds exactly one value of the set. -/
theorem context_closed_set (h : CompletionHelper) (sql : String) (cursorPos : Int) :
    (∀ k : Context, k ∈ [Context.NONE, Context.SELECT_RESULT_COLUMN, Context.SELECT_FROM,
      Context.SELECT_WHERE, Context.SELECT_GROUP_BY, Context.SELECT_HAVING,
      Context.SELECT_ORDER_BY, Context.SELECT_LIMIT, Context.UPDATE_COLUMN,
      Context.CREATE_TABLE, Context.CREATE_TRIGGER, Context.EXPR]) ∧
    [Context.NONE, Context.SELECT_RESULT_COLUMN, Context.SELECT_FROM,
      Context.SELECT_WHERE, Context.SELECT_GROUP_BY, Context.SELECT_HAVING,
      Context.SELECT_ORDER_BY, Context.SELECT_LIMIT, Context.UPDATE_COLUMN,
      Context.CREATE_TABLE, Context.CREATE_TRIGGER, Context.EXPR].Nodup ∧
    ({ fullSql := sql, cursorPosition := cursorPos } : CompletionHelper).context =
      Context.NONE ∧
    (∃! k, k ∈ [Context.NONE, Context.SELECT_RESULT_COLUMN, Context.SELECT_FROM,
      Context.SELECT_WHERE, Context.SELECT_GROUP_BY, Context.SELECT_HAVING,
      Context.SELECT_ORDER_BY, Context.SELECT_LIMIT, Context.UPDATE_COLUMN,
      Context.CREATE_TABLE, Context.CREATE_TRIGGER, Context.EXPR] ∧
      h.context = k) := by
  have hall : ∀ k : Context, k ∈ [Context.NONE, Context.SELECT_RESULT_COLUMN,
      Context.SELECT_FROM, Context.SELECT_WHERE, Context.SELECT_GROUP_BY,
      Context.SELECT_HAVING, Context.SELECT_ORDER_BY, Context.SELECT_LIMIT,
      Context.UPDATE_COLUMN, Context.CREATE_TABLE, Context.CREATE_TRIGGER,
      Context.EXPR] := by
    intro k
    cases k <;> decide
  refine ⟨hall, by decide, rfl, ?_⟩
  exact ⟨h.context, ⟨hall _, rfl⟩, fun k hk => hk.2.symm⟩

end CompletionHelper

/-! ### The SQLite 3 database plugin -/

namespace DbPluginSqlite3

/-- C7: `getInstance` returns null exactly when `open()` fails or the probe query
`SELECT * FROM sqlite_master` reports an error; in every other case it returns the
object it created, in the state left by `close()`, the last call made on it, and the
object was not deleted. -/
theorem getInstance_null_iff {σ : Type} (drv : DbSqlite3 σ) (name path : String)
    (options : List (String × String)) :
    ((getInstance drv name path options).1 = none ↔
      ((drv.openDb (drv.create name path options)).1 = false ∨
       (drv.exec (drv.openDb (drv.create name path options)).2 probeQuery).1 = true)) ∧
    ((getInstance drv name path options).1 ≠ none →
      (getInstance drv name path options).1 =
        some (drv.closeDb
          (drv.exec (drv.openDb (drv.create name path options)).2 probeQuery).2) ∧
      (getInstance drv name path options).2.getLast? = some Call.closed ∧
      Call.deleted ∉ (getInstance drv name path options).2) ∧
    probeQuery = "SELECT * FROM sqlite_master" := by
  unfold getInstance
  refine ⟨?_, ?_, rfl⟩
  · cases ho : (drv.openDb (drv.create name path options)).1
    · simp [ho]
    · cases he : (drv.exec (drv.openDb (drv.create name path options)).2 probeQuery).1 <;>
        simp [ho, he]
  · cases ho : (drv.openDb (drv.create name path options)).1
    · simp [ho]
    · cases he : (drv.exec (drv.openDb (drv.create name path options)).2 probeQuery).1 <;>
        simp [ho, he]

/-- Witness of C7: for a file that is a database the example object is returned
closed; for `broken.db` the result is null. -/
theorem getInstance_null_iff_witness :
    (getInstance exampleDb "main" "main.db" []).1 = some (true, false) ∧
    (getInstance exampleDb "main" "broken.db" []).1 = none :=
  ⟨((getInstance_null_iff exampleDb "main" "main.db" []).2.1 (by decide)).1,
   (getInstance_null_iff exampleDb "main" "broken.db" []).1.mpr (Or.inr (by decide))⟩

theorem fileName_append (dir name : List Char) (hname : '/' ∉ name) :
    fileName (dir ++ '/' :: name) = name := by
  unfold fileName
  have hall : ∀ c ∈ name.reverse, (fun c => c != '/') c = true := by
    intro c hc
    have hne : c ≠ '/' := fun h => hname (h ▸ List.mem_reverse.mp hc)
    simpa using hne
  rw [List.reverse_append, List.reverse_cons, List.append_assoc,
    List.takeWhile_append_of_pos hall]
  simp

theorem fileName_self (name : List Char) (hname : '/' ∉ name) : fileName name = name := by
  unfold fileName
  have hall : ∀ c ∈ name.reverse, (fun c => c != '/') c = true := by
    intro c hc
    have hne : c ≠ '/' := fun h => hname (h ▸ List.mem_reverse.mp hc)
    simpa using hne
  rw [List.takeWhile_eq_self_iff.mpr hall, List.reverse_reverse]

/-- C8, as the code has it: `generateDbName` returns the file name of the path cut
before its first `.` and nothing else: the directory part is dropped, and two paths
with the same file name in different directories give the same name. -/
theorem generateDbName_baseName (dir name : List Char) (hname : '/' ∉ name) :
    generateDbName ⟨dir ++ '/' :: name⟩ = ⟨name.takeWhile (fun c => c != '.')⟩ ∧
    generateDbName ⟨name⟩ = ⟨name.takeWhile (fun c => c != '.')⟩ ∧
    (∀ dir2 : List Char,
      generateDbName ⟨dir2 ++ '/' :: name⟩ = generateDbName ⟨dir ++ '/' :: name⟩) := by
  refine ⟨?_, ?_, ?_⟩
  · simp only [generateDbName, baseName, fileName_append dir name hname]
  · simp only [generateDbName, baseName, fileName_self name hname]
  · intro dir2
    simp only [generateDbName, baseName, fileName_append dir name hname,
      fileName_append dir2 name hname]

/-- Witness of C8 as amended: `/home/user/test.db` and `/tmp/test.db` both give `test`. -/
theorem generateDbName_baseName_witness :
    generateDbName "/home/user/test.db" = "test" ∧
    generateDbName "/tmp/test.db" = generateDbName "/home/user/test.db" :=
  ⟨(generateDbName_baseName "/home/user".data "test.db".data (by decide)).1,
   (generateDbName_baseName "/home/user".data "test.db".data (by decide)).2.2 "/tmp".data⟩

/-- C8 as stated fails: for `/home/user/test.db` the file name is `test.db`, and
`generateDbName` returns `test`. -/
theorem generateDbName_not_fileName :
    (⟨fileName "/home/user/test.db".data⟩ : String) = "test.db" ∧
    generateDbName "/home/user/test.db" = "test" ∧
    generateDbName "/home/user/test.db" ≠ ⟨fileName "/home/user/test.db".data⟩ := by
  decide

end DbPluginSqlite3

/-! ### The console command `query` -/

namespace CliCommandSql

/-- When `validate` accepts: one argument and a current database. -/
theorem validate_accepts_iff (cli : Cli) (args : List String) :
    (validate cli args).1 = true ↔ args.length = 1 ∧ cli.currentDb.isSome = true := by
  unfold validate
  by_cases hlen : args.length = 1
  · cases hdb : cli.currentDb <;> simp [hlen]
  · simp [hlen]

/-- C9: `validate` returns true exactly when the argument list has exactly one element
and the console has a current working database; with any other argument count it
returns false after printing the usage `query <sql>` and nothing else, so without the
message about a missing working database. -/
theorem validate_spec (cli : Cli) (args : List String) :
    ((validate cli args).1 = true ↔ args.length = 1 ∧ cli.currentDb.isSome = true) ∧
    (args.length ≠ 1 →
      validate cli args = (false, [Effect.usagePrinted "query <sql>"]) ∧
      Effect.println noWorkingDbMessage ∉ (validate cli args).2) := by
  refine ⟨validate_accepts_iff cli args, ?_⟩
  intro hlen
  have hu : usage = "query <sql>" := by decide
  simp [validate, hlen, hu]

/-- Witness of C9: no argument, or two, and the usage is all that is printed, also
without a working database; one argument and a working database is accepted. -/
theorem validate_spec_witness :
    validate ⟨none⟩ ["select 1", "select 2"] = (false, [Effect.usagePrinted "query <sql>"]) ∧
    (validate ⟨some ⟨"main", true⟩⟩ ["select 1"]).1 = true :=
  ⟨((validate_spec ⟨none⟩ ["select 1", "select 2"]).2 (by decide)).1,
   (validate_spec ⟨some ⟨"main", true⟩⟩ ["select 1"]).1.mpr ⟨rfl, rfl⟩⟩

/-- C10: for an argument list accepted by `validate`, `execute` returns false, prints
`Database is not open.` and starts no executor when the console has no current
database or that database is not open; otherwise it starts the query `args[0]` on the
current database and returns true, whatever the later outcome of the query. -/
theorem execute_spec (validated cli : Cli) (maxLength : Nat) (outcome : QueryOutcome)
    (args : List String) (haccepted : (validate validated args).1 = true) :
    ((cli.currentDb = none ∨ ∃ db, cli.currentDb = some db ∧ db.isOpen = false) →
      execute cli maxLength outcome args =
        some (false, [Effect.println "Database is not open."])) ∧
    (∀ db, cli.currentDb = some db → db.isOpen = true →
      ∃ query, args = [query] ∧
        execute cli maxLength outcome args =
          some (true, Effect.executorStarted db query :: afterExecution maxLength outcome)) := by
  have hlen : args.length = 1 := ((validate_accepts_iff validated args).mp haccepted).1
  have hmsg : notOpenMessage = "Database is not open." := by decide
  constructor
  · intro hno
    rcases hno with hnone | ⟨db, hdb, hclosed⟩
    · simp [execute, hnone, hmsg]
    · simp [execute, hdb, hclosed, hmsg]
  · intro db hdb hopen
    match args, hlen with
    | [query], _ => exact ⟨query, rfl, by simp [execute, hdb, hopen]⟩

/-- Witness of C10: with the open database `main` the query is started and `execute`
returns true although the query fails later; with `main` closed nothing is started. -/
theorem execute_spec_witness :
    execute ⟨some ⟨"main", true⟩⟩ 20 (QueryOutcome.failed 1 "no such table: t") ["select * from t"] =
      some (true, Effect.executorStarted ⟨"main", true⟩ "select * from t" ::
        afterExecution 20 (QueryOutcome.failed 1 "no such table: t")) ∧
    execute ⟨some ⟨"main", false⟩⟩ 20 (QueryOutcome.failed 1 "no such table: t")
        ["select * from t"] =
      some (false, [Effect.println "Database is not open."]) := by
  have hacc : (validate ⟨some ⟨"main", true⟩⟩ ["select * from t"]).1 = true := by decide
  refine ⟨?_, ?_⟩
  · obtain ⟨query, hq, hexec⟩ :=
      (execute_spec ⟨some ⟨"main", true⟩⟩ ⟨some ⟨"main", true⟩⟩ 20
        (QueryOutcome.failed 1 "no such table: t") ["select * from t"] hacc).2
        ⟨"main", true⟩ rfl rfl
    cases hq
    exact hexec
  · exact (execute_spec ⟨some ⟨"main", true⟩⟩ ⟨some ⟨"main", false⟩⟩ 20
      (QueryOutcome.failed 1 "no such table: t") ["select * from t"] hacc).1
      (Or.inr ⟨⟨"main", false⟩, rfl, rfl⟩)

end CliCommandSql

/-! ### The simple SQL formatter plugin -/

namespace SqlFormatterSimplePlugin

open CompletionHelper (Token TokenType SqliteStatement)

theorem formatToken_value (cfg : Config) (t : Token) :
    (formatToken cfg t).value =
      if t.type = TokenType.KEYWORD then
        (if cfg.UpperCaseKeywords = true then toUpper t.value else t.value)
      else if t.type = TokenType.SPACE ∧ cfg.TrimLongSpaces = true ∧ t.value.length > 1 then " "
      else t.value := by
  unfold formatToken
  by_cases hk : t.type = TokenType.KEYWORD
  · have hs : ¬ t.type = TokenType.SPACE := by rw [hk]; decide
    by_cases hu : cfg.UpperCaseKeywords = true <;> simp [hk, hu]
  · by_cases hs : t.type = TokenType.SPACE ∧ cfg.TrimLongSpaces = true ∧ t.value.length > 1
    · simp [hk, hs]
    · simp only [hk, false_and, if_false]
      rw [if_neg hs, if_neg hs]

theorem formatToken_frame (cfg : Config) (t : Token) :
    (formatToken cfg t).type = t.type ∧ (formatToken cfg t).start = t.start ∧
      (formatToken cfg t).endOffset = t.endOffset := by
  unfold formatToken
  by_cases hk : t.type = TokenType.KEYWORD ∧ cfg.UpperCaseKeywords = true
  · have hs : ¬ t.type = TokenType.SPACE := by rw [hk.1]; decide
    simp [hk, hs]
  · simp only [hk, if_false]
    by_cases hs : t.type = TokenType.SPACE ∧ cfg.TrimLongSpaces = true ∧ t.value.length > 1
    · simp [hs]
    · rw [if_neg hs]
      exact ⟨rfl, rfl, rfl⟩

theorem formatToken_off (cfg : Config) (hu : cfg.UpperCaseKeywords = false)
    (ht : cfg.TrimLongSpaces = false) (t : Token) : formatToken cfg t = t := by
  simp [formatToken, hu, ht]

/-- C15: `format` returns the concatenation, in the original order, of the per-token
values; the value of a KEYWORD token is upper-cased when `UpperCaseKeywords` is on and
kept when it is off; the value of a SPACE token is one space when `TrimLongSpaces` is
on and the value is longer than one character; every other value is kept.  Count,
order, types and start and end offsets of the tokens do not change, and with both
options off the result is the detokenized original. -/
theorem format_spec (cfg : Config) (query : SqliteStatement) :
    format cfg query =
      (query.tokens.map (fun t => (formatToken cfg t).value)).foldl (fun str v => str ++ v) "" ∧
    (∀ t : Token, (formatToken cfg t).value =
      if t.type = TokenType.KEYWORD then
        (if cfg.UpperCaseKeywords = true then toUpper t.value else t.value)
      else if t.type = TokenType.SPACE ∧ cfg.TrimLongSpaces = true ∧ t.value.length > 1 then " "
      else t.value) ∧
    (formatTokens cfg query.tokens).map (fun t => (t.type, t.start, t.endOffset)) =
      query.tokens.map (fun t => (t.type, t.start, t.endOffset)) ∧
    (formatTokens cfg query.tokens).length = query.tokens.length ∧
    (cfg.UpperCaseKeywords = false → cfg.TrimLongSpaces = false →
      formatTokens cfg query.tokens = query.tokens ∧
      format cfg query = detokenize query.tokens) := by
  refine ⟨?_, formatToken_value cfg, ?_, ?_, ?_⟩
  · simp only [format, detokenize, formatTokens, List.foldl_map]
  · simp only [formatTokens, List.map_map]
    apply List.map_congr_left
    intro t _
    obtain ⟨h1, h2, h3⟩ := formatToken_frame cfg t
    simp [h1, h2, h3]
  · simp [formatTokens]
  · intro hu ht
    have hid : formatTokens cfg query.tokens = query.tokens := by
      unfold formatTokens
      rw [List.map_congr_left (fun t _ => formatToken_off cfg hu ht t), List.map_id']
    exact ⟨hid, by rw [format, hid]⟩

/-- Witness of C15: the example query with both options on, and with both off. -/
theorem format_spec_witness :
    format ⟨true, true⟩ exampleQuery = "SELECT *\nFROM t" ∧
    format ⟨false, false⟩ exampleQuery = detokenize exampleQuery.tokens ∧
    format ⟨false, false⟩ exampleQuery = "select  *\nfrom   t" :=
  ⟨(format_spec ⟨true, true⟩ exampleQuery).1.trans (by decide),
   ((format_spec ⟨false, false⟩ exampleQuery).2.2.2.2 rfl rfl).2,
   (((format_spec ⟨false, false⟩ exampleQuery).2.2.2.2 rfl rfl).2).trans (by decide)⟩

end SqlFormatterSimplePlugin

/-! ### Start-up of the application core -/

namespace Core

end Core

end SQLiteStudio



